import Mathlib

/-!
Verification of the report-generation engine of `t3rep` (`main.go`).

The development shallowly embeds the program: Go `time` calendar arithmetic is
modelled on a wall-clock date type (fixed-offset local zone, second
granularity), the pure functions (`formatCSV`, `makeReport`, `(*task).reports`)
are translated directly, and the effectful parts (`(*report).exists`,
`(*reporter).generate`, `(*task).exec`, `run`) are modelled by explicit
environments describing the outcomes of the external calls, and by a labelled
transition system for the goroutine/semaphore dispatcher.
-/

namespace T3rep

/-- Wall-clock date and time in the local time zone (model of Go `time.Time`
as used by `main.go`: fixed-offset zone, second granularity). -/
structure DateTime where
  year : Int
  month : Int
  day : Int
  hour : Int
  minute : Int
  second : Int
deriving DecidableEq, Repr

/-- Leap-year test, as in Go `time.isLeap`. -/
def isLeap (y : Int) : Bool :=
  y % 4 == 0 && (y % 100 != 0 || y % 400 == 0)

/-- Number of days in month `m` of year `y` (month in 1..12), as in Go
`time.daysIn`. -/
def daysInMonth (y m : Int) : Int :=
  if m == 2 then (if isLeap y then 29 else 28)
  else if m == 4 || m == 6 || m == 9 || m == 11 then 30
  else 31

/-- Normalize a month count into a year and a month in 1..12 (Go `time.norm`
applied to the month in `time.Date`). Go's `norm` has floor semantics; the
divisor 12 is positive, so Euclidean division coincides with floor division. -/
def normMonth (y m : Int) : Int × Int :=
  (y + (m - 1) / 12, (m - 1) % 12 + 1)

/-- Normalize an out-of-range day of month by borrowing/carrying whole
calendar months: the observable behaviour of the day-overflow handling of Go
`time.Date`. The fuel argument only bounds the recursion; `natAbs d + 2` steps
always suffice, because every step moves `d` by at least 28 towards the valid
range, so the fuel is never exhausted on the inputs the program produces. -/
def normDays : Nat → Int → Int → Int → Int × Int × Int
  | 0, y, m, d => (y, m, d)
  | fuel + 1, y, m, d =>
    if d < 1 then
      let p := normMonth y (m - 1)
      normDays fuel p.1 p.2 (d + daysInMonth p.1 p.2)
    else if daysInMonth y m < d then
      let p := normMonth y (m + 1)
      normDays fuel p.1 p.2 (d - daysInMonth y m)
    else (y, m, d)

/-- Model of Go `time.Date(y, m, d, hh, mi, s, 0, time.Local)`: normalize
seconds into minutes, minutes into hours, hours into days (floor semantics, as
Go `norm`), then the month into the year, then the day by calendar
borrowing/carrying. -/
def goDate (y m d hh mi s : Int) : DateTime :=
  let mi1 := mi + s / 60
  let s1 := s % 60
  let hh1 := hh + mi1 / 60
  let mi2 := mi1 % 60
  let d1 := d + hh1 / 24
  let hh2 := hh1 % 24
  let p := normMonth y m
  let q := normDays (d1.natAbs + 2) p.1 p.2 d1
  ⟨q.1, q.2.1, q.2.2, hh2, mi2, s1⟩

/-- Model of Go `Time.AddDate(years, months, days)`: add componentwise, then
normalize exactly as `time.Date` does. -/
def addDate (t : DateTime) (years months days : Int) : DateTime :=
  goDate (t.year + years) (t.month + months) (t.day + days) t.hour t.minute t.second

/-- Model of Go `Time.Add` restricted to whole seconds. In the fixed-offset
local zone of this model, adding a duration adds to the wall clock. -/
def addSeconds (t : DateTime) (secs : Int) : DateTime :=
  let tot := (t.hour * 60 + t.minute) * 60 + t.second + secs
  goDate t.year t.month (t.day + tot / 86400)
    (tot % 86400 / 3600) (tot % 86400 / 60 % 60) (tot % 60)

/-- Model of `fmt.Sprintf("%02d", n)` as used for the month component of the
report file name: two digits, zero padded. -/
def pad2 (n : Int) : String :=
  if 0 ≤ n ∧ n < 10 then "0" ++ toString n else toString n

/-- Model of `filepath.Join(dir, file)` for clean path components (no `.`,
`..` or doubled separators): an empty first element is dropped, otherwise the
two parts are joined with a slash. -/
def joinPath (dir file : String) : String :=
  if dir = "" then file else dir ++ "/" ++ file

/-- The `report` struct of main.go:129-134 (`end` is a Lean keyword, so the
field is spelled `end_`). -/
structure Report where
  name : String
  fname : String
  start : DateTime
  end_ : DateTime
deriving DecidableEq, Repr

/-- `makeReport` (main.go:136-143): the window end is
`start.AddDate(0, 1, -1).Add(23*Hour + 59*Minute + 59*Second)` and the file
name is `filepath.Join(dir, fmt.Sprintf("%s-%d-%02d.csv", name, year, month))`. -/
def makeReport (name dir : String) (start : DateTime) : Report :=
  { name := name
    fname := joinPath dir (name ++ "-" ++ toString start.year ++ "-" ++ pad2 start.month ++ ".csv")
    start := start
    end_ := addSeconds (addDate start 0 1 (-1)) (23 * 3600 + 59 * 60 + 59) }

/-- The loop of `(*task).reports` (main.go:197-200): step the anchor back one
calendar month, emit a report for it, repeat. -/
def reportsFrom (name dir : String) : DateTime → Nat → List Report
  | _, 0 => []
  | last, n + 1 =>
    let last1 := addDate last 0 (-1) 0
    makeReport name dir last1 :: reportsFrom name dir last1 n

/-- `(*task).reports` (main.go:194-202). The anchor starts at the first
instant of `now`'s month; `make([]report, t.months)` panics at a negative
length (`makeslice: len out of range`), modelled by `none`. -/
def taskReports (name dir : String) (now : DateTime) (months : Int) : Option (List Report) :=
  if months < 0 then none
  else some (reportsFrom name dir (goDate now.year now.month 1 0 0 0) months.toNat)

/-- Model of `strings.Replace(f, "\"", "\\\"", -1)` in `formatCSV`
(main.go:50): every double quote becomes backslash, double quote. -/
def escapeQuotes (s : String) : String :=
  ⟨s.data.foldr (fun c acc => if c = '"' then '\\' :: '"' :: acc else c :: acc) []⟩

/-- The field loop of `formatCSV` (main.go:49-56): the field at index 0 is
written as `"%s"`, every later field as `;"%s"`, each with its double quotes
already escaped. -/
def formatCSVAux : List String → Bool → String
  | [], _ => ""
  | f :: fs, first =>
    let q := "\"" ++ escapeQuotes f ++ "\""
    (if first then q else ";" ++ q) ++ formatCSVAux fs false

/-- `formatCSV` (main.go:47-59): the formatted fields followed by CRLF. -/
def formatCSV (fields : List String) : String :=
  formatCSVAux fields true ++ "\r\n"

/-! ## Spec-side calendar coordinates

The spec's window claims speak of "the month `k+1` months before `now`'s
month". Months are put on the integer line: month `m` of year `y` (with `m`
in 1..12) gets index `12*y + (m - 1)`. These definitions follow the spec's
words and are compared against the code's calendar arithmetic. -/

/-- Linear index of a calendar month. -/
def monthIndex (y m : Int) : Int := 12 * y + (m - 1)

/-- Year of the month with linear index `i`. -/
def indexYear (i : Int) : Int := i / 12

/-- Month (1..12) of the month with linear index `i`. -/
def indexMonth (i : Int) : Int := i % 12 + 1

/-- First instant (midnight of day 1, local time) of the month with index `i`. -/
def monthStart (i : Int) : DateTime :=
  ⟨indexYear i, indexMonth i, 1, 0, 0, 0⟩

/-- Last instant (23:59:59 of the last calendar day, local time) of the month
with index `i`. -/
def monthEnd (i : Int) : DateTime :=
  ⟨indexYear i, indexMonth i, daysInMonth (indexYear i) (indexMonth i), 23, 59, 59⟩

/-! ## Calendar lemmas -/

lemma daysInMonth_bounds (y m : Int) : 28 ≤ daysInMonth y m ∧ daysInMonth y m ≤ 31 := by
  unfold daysInMonth
  split
  · split <;> omega
  · split <;> omega

lemma normMonth_eq (y m : Int) :
    normMonth y m = (indexYear (monthIndex y m), indexMonth (monthIndex y m)) := by
  unfold normMonth indexYear indexMonth monthIndex
  simp only [Prod.mk.injEq]
  constructor <;> omega

lemma monthIndex_index (i : Int) : monthIndex (indexYear i) (indexMonth i) = i := by
  unfold monthIndex indexYear indexMonth; omega

lemma indexMonth_bounds (i : Int) : 1 ≤ indexMonth i ∧ indexMonth i ≤ 12 := by
  unfold indexMonth; omega

lemma normDays_in_range (fuel : Nat) (y m d : Int) (h1 : 1 ≤ d) (h2 : d ≤ daysInMonth y m) :
    normDays fuel y m d = (y, m, d) := by
  cases fuel with
  | zero => rfl
  | succ n =>
    simp only [normDays]
    rw [if_neg (by omega), if_neg (by omega)]

lemma normDays_day_zero (fuel : Nat) (y m : Int) :
    normDays (fuel + 2) y m 0 =
      ((normMonth y (m - 1)).1, (normMonth y (m - 1)).2,
        daysInMonth (normMonth y (m - 1)).1 (normMonth y (m - 1)).2) := by
  simp only [normDays]
  rw [if_pos (by omega), zero_add]
  exact normDays_in_range (fuel + 1) (normMonth y (m - 1)).1 (normMonth y (m - 1)).2
    (daysInMonth (normMonth y (m - 1)).1 (normMonth y (m - 1)).2)
    (by have := daysInMonth_bounds (normMonth y (m - 1)).1 (normMonth y (m - 1)).2; omega) le_rfl

lemma normDays_carry_one (fuel : Nat) (y m : Int) :
    normDays (fuel + 2) y m (daysInMonth y m + 1) =
      ((normMonth y (m + 1)).1, (normMonth y (m + 1)).2, 1) := by
  simp only [normDays]
  rw [if_neg (by have := daysInMonth_bounds y m; omega),
    if_pos (by omega), show daysInMonth y m + 1 - daysInMonth y m = 1 by ring]
  exact normDays_in_range (fuel + 1) (normMonth y (m + 1)).1 (normMonth y (m + 1)).2 1 le_rfl
    (by have := daysInMonth_bounds (normMonth y (m + 1)).1 (normMonth y (m + 1)).2; omega)

lemma goDate_first (y m : Int) : goDate y m 1 0 0 0 = monthStart (monthIndex y m) := by
  have h0 : goDate y m 1 0 0 0 =
      ⟨(normDays 3 (normMonth y m).1 (normMonth y m).2 1).1,
       (normDays 3 (normMonth y m).1 (normMonth y m).2 1).2.1,
       (normDays 3 (normMonth y m).1 (normMonth y m).2 1).2.2, 0, 0, 0⟩ := rfl
  rw [h0, normDays_in_range 3 _ _ 1 le_rfl
    (by have := daysInMonth_bounds (normMonth y m).1 (normMonth y m).2; omega)]
  rw [normMonth_eq]
  rfl

lemma addDate_back_one (y m : Int) :
    addDate ⟨y, m, 1, 0, 0, 0⟩ 0 (-1) 0 = monthStart (monthIndex y m - 1) := by
  have h0 : addDate ⟨y, m, 1, 0, 0, 0⟩ 0 (-1) 0 = goDate (y + 0) (m + -1) 1 0 0 0 := rfl
  rw [h0, goDate_first]
  congr 1
  unfold monthIndex
  ring

lemma monthStart_back_one (i : Int) :
    addDate (monthStart i) 0 (-1) 0 = monthStart (i - 1) := by
  rw [show monthStart i = (⟨indexYear i, indexMonth i, 1, 0, 0, 0⟩ : DateTime) from rfl,
    addDate_back_one, monthIndex_index]

lemma normMonth_compose_sub_one (y m : Int) :
    normMonth (normMonth y m).1 ((normMonth y m).2 - 1) = normMonth y (m - 1) := by
  unfold normMonth
  simp only [Prod.mk.injEq]
  constructor <;> omega

lemma normMonth_compose_add_one (y m : Int) :
    normMonth (normMonth y m).1 ((normMonth y m).2 + 1) = normMonth y (m + 1) := by
  unfold normMonth
  simp only [Prod.mk.injEq]
  constructor <;> omega

lemma normDays_two_day_zero (y m : Int) :
    normDays 2 y m 0 =
      ((normMonth y (m - 1)).1, (normMonth y (m - 1)).2,
        daysInMonth (normMonth y (m - 1)).1 (normMonth y (m - 1)).2) :=
  normDays_day_zero 0 y m

lemma goDate_valid (y m d hh mi s : Int)
    (hd1 : 1 ≤ d) (hd2 : d ≤ daysInMonth (normMonth y m).1 (normMonth y m).2)
    (hha : 0 ≤ hh) (hhb : hh < 24) (hma : 0 ≤ mi) (hmb : mi < 60)
    (hsa : 0 ≤ s) (hsb : s < 60) :
    goDate y m d hh mi s = ⟨(normMonth y m).1, (normMonth y m).2, d, hh, mi, s⟩ := by
  simp only [goDate]
  rw [Int.ediv_eq_zero_of_lt hsa hsb, Int.emod_eq_of_lt hsa hsb, add_zero,
    Int.ediv_eq_zero_of_lt hma hmb, Int.emod_eq_of_lt hma hmb, add_zero,
    Int.ediv_eq_zero_of_lt hha hhb, Int.emod_eq_of_lt hha hhb, add_zero,
    normDays_in_range _ _ _ _ hd1 hd2]

lemma goDate_day_zero (y m : Int) :
    goDate y m 0 0 0 0 =
      ⟨(normMonth y (m - 1)).1, (normMonth y (m - 1)).2,
        daysInMonth (normMonth y (m - 1)).1 (normMonth y (m - 1)).2, 0, 0, 0⟩ := by
  have h0 : goDate y m 0 0 0 0 =
      ⟨(normDays 2 (normMonth y m).1 (normMonth y m).2 0).1,
       (normDays 2 (normMonth y m).1 (normMonth y m).2 0).2.1,
       (normDays 2 (normMonth y m).1 (normMonth y m).2 0).2.2, 0, 0, 0⟩ := rfl
  rw [h0, normDays_two_day_zero, normMonth_compose_sub_one]

lemma goDate_day_carry (y m d : Int)
    (hd : d = daysInMonth (normMonth y m).1 (normMonth y m).2 + 1) :
    goDate y m d 0 0 0 = ⟨(normMonth y (m + 1)).1, (normMonth y (m + 1)).2, 1, 0, 0, 0⟩ := by
  have h0 : goDate y m d 0 0 0 =
      ⟨(normDays ((d + 0).natAbs + 2) (normMonth y m).1 (normMonth y m).2 (d + 0)).1,
       (normDays ((d + 0).natAbs + 2) (normMonth y m).1 (normMonth y m).2 (d + 0)).2.1,
       (normDays ((d + 0).natAbs + 2) (normMonth y m).1 (normMonth y m).2 (d + 0)).2.2,
       0, 0, 0⟩ := rfl
  rw [h0, add_zero, hd, normDays_carry_one, normMonth_compose_add_one]

lemma addDate_fwd (i : Int) :
    addDate (monthStart i) 0 1 (-1) =
      ⟨indexYear i, indexMonth i, daysInMonth (indexYear i) (indexMonth i), 0, 0, 0⟩ := by
  have h0 : addDate (monthStart i) 0 1 (-1) =
      goDate (indexYear i + 0) (indexMonth i + 1) 0 0 0 0 := rfl
  rw [h0, add_zero, goDate_day_zero, add_sub_cancel_right, normMonth_eq, monthIndex_index]

lemma month_index_add_one (i : Int) : monthIndex (indexYear i) (indexMonth i + 1) = i + 1 := by
  have := monthIndex_index i
  unfold monthIndex at *
  omega

lemma addSeconds_day_end (i : Int) :
    addSeconds ⟨indexYear i, indexMonth i, daysInMonth (indexYear i) (indexMonth i), 0, 0, 0⟩
      (23 * 3600 + 59 * 60 + 59) = monthEnd i := by
  have h0 : addSeconds ⟨indexYear i, indexMonth i, daysInMonth (indexYear i) (indexMonth i), 0, 0, 0⟩
        (23 * 3600 + 59 * 60 + 59) =
      goDate (indexYear i) (indexMonth i)
        (daysInMonth (indexYear i) (indexMonth i) + 0) 23 59 59 := rfl
  rw [h0, add_zero, goDate_valid _ _ _ _ _ _
    (by have := daysInMonth_bounds (indexYear i) (indexMonth i); omega)
    (by rw [normMonth_eq, monthIndex_index])
    (by omega) (by omega) (by omega) (by omega) (by omega) (by omega)]
  rw [normMonth_eq, monthIndex_index]
  rfl

lemma makeReport_monthStart (name dir : String) (i : Int) :
    makeReport name dir (monthStart i) =
      ⟨name,
        joinPath dir (name ++ "-" ++ toString (indexYear i) ++ "-" ++ pad2 (indexMonth i) ++ ".csv"),
        monthStart i, monthEnd i⟩ := by
  simp only [makeReport, addDate_fwd, addSeconds_day_end]
  rfl

lemma monthEnd_succ (i : Int) : addSeconds (monthEnd i) 1 = monthStart (i + 1) := by
  have h0 : addSeconds (monthEnd i) 1 =
      goDate (indexYear i) (indexMonth i)
        (daysInMonth (indexYear i) (indexMonth i) + 1) 0 0 0 := rfl
  rw [h0, goDate_day_carry _ _ _ (by rw [normMonth_eq, monthIndex_index]),
    normMonth_eq, month_index_add_one]
  rfl

lemma reportsFrom_monthStart (name dir : String) (n : Nat) :
    ∀ i : Int, reportsFrom name dir (monthStart i) n =
      (List.range n).map (fun k : Nat => makeReport name dir (monthStart (i - ((k : Int) + 1)))) := by
  induction n with
  | zero => intro i; rfl
  | succ n ih =>
    intro i
    rw [show reportsFrom name dir (monthStart i) (n + 1) =
        makeReport name dir (addDate (monthStart i) 0 (-1) 0) ::
          reportsFrom name dir (addDate (monthStart i) 0 (-1) 0) n from rfl]
    rw [monthStart_back_one, ih (i - 1), List.range_succ_eq_map, List.map_cons, List.map_map]
    have hfun : (fun k : Nat => makeReport name dir (monthStart (i - 1 - ((k : Int) + 1)))) =
        (fun k : Nat => makeReport name dir (monthStart (i - ((k : Int) + 1)))) ∘ Nat.succ := by
      funext k
      simp only [Function.comp_apply]
      rw [show i - 1 - ((k : Int) + 1) = i - ((Nat.succ k : Int) + 1) by push_cast; ring]
    rw [hfun]
    congr 1

lemma taskReports_eq (name dir : String) (now : DateTime) (N : Int) (hN : 0 ≤ N) :
    taskReports name dir now N =
      some ((List.range N.toNat).map
        (fun k : Nat =>
          makeReport name dir (monthStart (monthIndex now.year now.month - ((k : Int) + 1))))) := by
  unfold taskReports
  rw [if_neg (by omega), goDate_first, reportsFrom_monthStart]

lemma pad2_length (m : Int) (h1 : 1 ≤ m) (h2 : m ≤ 12) : (pad2 m).length = 2 := by
  interval_cases m <;> decide

/-! ## Claim theorems: window expansion -/

/-- C2: for every instant `now` and every `monthsBack = N ≥ 0`, window
expansion returns exactly N reports; report `k` covers exactly the calendar
month `k+1` months before `now`'s month (its start is that month's first
instant and its end that same month's last instant), every report's month is
strictly before the calendar month containing `now`, the list is ordered
most-recent-first, and consecutive windows are adjacent at one-second
granularity (no gaps, no overlaps). -/
theorem window_expansion_exact (name dir : String) (now : DateTime) (N : Int) (hN : 0 ≤ N) :
    ∃ l : List Report, taskReports name dir now N = some l
      ∧ l.length = N.toNat
      ∧ (∀ k : Nat, ∀ hk : k < l.length,
          (l.get ⟨k, hk⟩).start = monthStart (monthIndex now.year now.month - ((k : Int) + 1))
          ∧ (l.get ⟨k, hk⟩).end_ = monthEnd (monthIndex now.year now.month - ((k : Int) + 1))
          ∧ monthIndex now.year now.month - ((k : Int) + 1) < monthIndex now.year now.month)
      ∧ (∀ k : Nat, ∀ hk : k + 1 < l.length,
          addSeconds ((l.get ⟨k + 1, hk⟩).end_) 1 = (l.get ⟨k, Nat.lt_of_succ_lt hk⟩).start) := by
  refine ⟨_, taskReports_eq name dir now N hN, by simp, ?_, ?_⟩
  · intro k hk
    simp only [List.get_eq_getElem, List.getElem_map, List.getElem_range]
    rw [makeReport_monthStart]
    exact ⟨rfl, rfl, by omega⟩
  · intro k hk
    simp only [List.get_eq_getElem, List.getElem_map, List.getElem_range]
    rw [makeReport_monthStart, makeReport_monthStart]
    show addSeconds (monthEnd (monthIndex now.year now.month - (((k + 1 : Nat) : Int) + 1))) 1 =
      monthStart (monthIndex now.year now.month - ((k : Int) + 1))
    rw [monthEnd_succ]
    congr 1
    push_cast
    ring

/-- Witness for `window_expansion_exact` at `now = 2024-03-15`, `N = 2`. -/
theorem window_expansion_exact_witness : ∃ l : List Report,
    taskReports "sys" "" ⟨2024, 3, 15, 0, 0, 0⟩ 2 = some l
      ∧ l.length = (2 : Int).toNat
      ∧ (∀ k : Nat, ∀ hk : k < l.length,
          (l.get ⟨k, hk⟩).start = monthStart (monthIndex 2024 3 - ((k : Int) + 1))
          ∧ (l.get ⟨k, hk⟩).end_ = monthEnd (monthIndex 2024 3 - ((k : Int) + 1))
          ∧ monthIndex 2024 3 - ((k : Int) + 1) < monthIndex 2024 3)
      ∧ (∀ k : Nat, ∀ hk : k + 1 < l.length,
          addSeconds ((l.get ⟨k + 1, hk⟩).end_) 1 = (l.get ⟨k, Nat.lt_of_succ_lt hk⟩).start) :=
  window_expansion_exact "sys" "" ⟨2024, 3, 15, 0, 0, 0⟩ 2 (by decide)

/-- C3: every report produced by window expansion starts at the first day of
its month at 00:00:00 local time and ends at 23:59:59 local time on the last
calendar day of the same month (leap Februaries included, via `daysInMonth`),
and its file name is `<directory>/<system>-<YYYY>-<MM>.csv` with a
two-character zero-padded month; concretely, `now = 2024-03-15` with
`monthsBack = 2` yields February 2024 then January 2024, in that order. -/
theorem report_bounds_and_filename :
    (∀ (name dir : String) (now : DateTime) (N : Int), 0 ≤ N →
      ∀ l, taskReports name dir now N = some l → ∀ r ∈ l,
        r.start.day = 1 ∧ r.start.hour = 0 ∧ r.start.minute = 0 ∧ r.start.second = 0
        ∧ 1 ≤ r.start.month ∧ r.start.month ≤ 12
        ∧ r.end_.year = r.start.year ∧ r.end_.month = r.start.month
        ∧ r.end_.day = daysInMonth r.start.year r.start.month
        ∧ r.end_.hour = 23 ∧ r.end_.minute = 59 ∧ r.end_.second = 59
        ∧ r.fname =
            joinPath dir (name ++ "-" ++ toString r.start.year ++ "-" ++ pad2 r.start.month ++ ".csv")
        ∧ (pad2 r.start.month).length = 2)
    ∧ taskReports "sys" "" ⟨2024, 3, 15, 0, 0, 0⟩ 2 =
        some [⟨"sys", "sys-2024-02.csv", ⟨2024, 2, 1, 0, 0, 0⟩, ⟨2024, 2, 29, 23, 59, 59⟩⟩,
              ⟨"sys", "sys-2024-01.csv", ⟨2024, 1, 1, 0, 0, 0⟩, ⟨2024, 1, 31, 23, 59, 59⟩⟩] := by
  constructor
  · intro name dir now N hN l hl r hr
    rw [taskReports_eq name dir now N hN] at hl
    obtain rfl := (Option.some.inj hl).symm
    obtain ⟨k, hk, rfl⟩ := List.mem_map.mp hr
    rw [makeReport_monthStart]
    exact ⟨rfl, rfl, rfl, rfl,
      (indexMonth_bounds _).1, (indexMonth_bounds _).2,
      rfl, rfl, rfl, rfl, rfl, rfl, rfl,
      pad2_length _ (indexMonth_bounds _).1 (indexMonth_bounds _).2⟩
  · decide

/-- Witness for `report_bounds_and_filename`, evaluated at the February 2024
report of the concrete example. -/
theorem report_bounds_and_filename_witness :
    ((⟨"sys", "sys-2024-02.csv", ⟨2024, 2, 1, 0, 0, 0⟩, ⟨2024, 2, 29, 23, 59, 59⟩⟩ : Report).start.day = 1
      ∧ (⟨"sys", "sys-2024-02.csv", ⟨2024, 2, 1, 0, 0, 0⟩, ⟨2024, 2, 29, 23, 59, 59⟩⟩ : Report).start.hour = 0
      ∧ (⟨"sys", "sys-2024-02.csv", ⟨2024, 2, 1, 0, 0, 0⟩, ⟨2024, 2, 29, 23, 59, 59⟩⟩ : Report).start.minute = 0
      ∧ (⟨"sys", "sys-2024-02.csv", ⟨2024, 2, 1, 0, 0, 0⟩, ⟨2024, 2, 29, 23, 59, 59⟩⟩ : Report).start.second = 0
      ∧ 1 ≤ (⟨"sys", "sys-2024-02.csv", ⟨2024, 2, 1, 0, 0, 0⟩, ⟨2024, 2, 29, 23, 59, 59⟩⟩ : Report).start.month
      ∧ (⟨"sys", "sys-2024-02.csv", ⟨2024, 2, 1, 0, 0, 0⟩, ⟨2024, 2, 29, 23, 59, 59⟩⟩ : Report).start.month ≤ 12
      ∧ (⟨"sys", "sys-2024-02.csv", ⟨2024, 2, 1, 0, 0, 0⟩, ⟨2024, 2, 29, 23, 59, 59⟩⟩ : Report).end_.year =
          (⟨"sys", "sys-2024-02.csv", ⟨2024, 2, 1, 0, 0, 0⟩, ⟨2024, 2, 29, 23, 59, 59⟩⟩ : Report).start.year
      ∧ (⟨"sys", "sys-2024-02.csv", ⟨2024, 2, 1, 0, 0, 0⟩, ⟨2024, 2, 29, 23, 59, 59⟩⟩ : Report).end_.month =
          (⟨"sys", "sys-2024-02.csv", ⟨2024, 2, 1, 0, 0, 0⟩, ⟨2024, 2, 29, 23, 59, 59⟩⟩ : Report).start.month
      ∧ (⟨"sys", "sys-2024-02.csv", ⟨2024, 2, 1, 0, 0, 0⟩, ⟨2024, 2, 29, 23, 59, 59⟩⟩ : Report).end_.day =
          daysInMonth 2024 2
      ∧ (⟨"sys", "sys-2024-02.csv", ⟨2024, 2, 1, 0, 0, 0⟩, ⟨2024, 2, 29, 23, 59, 59⟩⟩ : Report).end_.hour = 23
      ∧ (⟨"sys", "sys-2024-02.csv", ⟨2024, 2, 1, 0, 0, 0⟩, ⟨2024, 2, 29, 23, 59, 59⟩⟩ : Report).end_.minute = 59
      ∧ (⟨"sys", "sys-2024-02.csv", ⟨2024, 2, 1, 0, 0, 0⟩, ⟨2024, 2, 29, 23, 59, 59⟩⟩ : Report).end_.second = 59
      ∧ (⟨"sys", "sys-2024-02.csv", ⟨2024, 2, 1, 0, 0, 0⟩, ⟨2024, 2, 29, 23, 59, 59⟩⟩ : Report).fname =
          joinPath "" ("sys" ++ "-" ++ toString (2024 : Int) ++ "-" ++ pad2 2 ++ ".csv")
      ∧ (pad2 (2 : Int)).length = 2) :=
  report_bounds_and_filename.1 "sys" "" ⟨2024, 3, 15, 0, 0, 0⟩ 2 (by decide) _
    report_bounds_and_filename.2
    ⟨"sys", "sys-2024-02.csv", ⟨2024, 2, 1, 0, 0, 0⟩, ⟨2024, 2, 29, 23, 59, 59⟩⟩ (by decide)

/-! ## Claim theorems: degenerate window counts -/

/-- C5 counterexample: at `monthsBack = -1` the window expansion of
`(*task).reports` does not behave as N = 0 and does not reject the input
gracefully: `make([]report, t.months)` panics at runtime with
`makeslice: len out of range` (modelled by `none`), so the claim that a
negative `monthsBack` "does not crash" is false on this code. -/
theorem negative_monthsBack_panics :
    taskReports "sys" "out" ⟨2024, 3, 15, 0, 0, 0⟩ (-1) = none := by decide

/-- C5 amended: `monthsBack = 0` yields the empty report sequence, and every
negative `monthsBack` makes `(*task).reports` panic in the slice allocation
(modelled by `none`) instead of behaving as N = 0 or rejecting the input. -/
theorem monthsBack_zero_empty_negative_panics (name dir : String) (now : DateTime) :
    taskReports name dir now 0 = some []
      ∧ ∀ m : Int, m < 0 → taskReports name dir now m = none := by
  constructor
  · unfold taskReports
    rw [if_neg (by omega)]
    rfl
  · intro m hm
    unfold taskReports
    rw [if_pos hm]

/-- Witness for `monthsBack_zero_empty_negative_panics` at concrete inputs. -/
theorem monthsBack_zero_empty_negative_panics_witness :
    taskReports "sys" "out" ⟨2024, 1, 1, 0, 0, 0⟩ 0 = some []
      ∧ taskReports "sys" "out" ⟨2024, 1, 1, 0, 0, 0⟩ (-2) = none :=
  ⟨(monthsBack_zero_empty_negative_panics "sys" "out" ⟨2024, 1, 1, 0, 0, 0⟩).1,
   (monthsBack_zero_empty_negative_panics "sys" "out" ⟨2024, 1, 1, 0, 0, 0⟩).2 (-2) (by decide)⟩

/-! ## Claim theorems: CSV formatting -/

/-- Fields joined by a semicolon separator, as the spec phrases the CSV line
layout. Spec-side definition, compared against `formatCSV`. -/
def joinSemi : List String → String
  | [] => ""
  | [x] => x
  | x :: y :: xs => x ++ ";" ++ joinSemi (y :: xs)

lemma escape_list_id (l : List Char) (h : ∀ c ∈ l, c ≠ '"') :
    l.foldr (fun c acc => if c = '"' then '\\' :: '"' :: acc else c :: acc) [] = l := by
  induction l with
  | nil => rfl
  | cons c cs ih =>
    rw [List.foldr_cons, ih (fun x hx => h x (List.mem_cons_of_mem _ hx)),
      if_neg (h c (List.mem_cons_self _ _))]

lemma escapeQuotes_eq_self (f : String) (h : ∀ c ∈ f.data, c ≠ '"') : escapeQuotes f = f := by
  cases f with
  | mk data => exact congrArg String.mk (escape_list_id data h)

lemma formatCSVAux_true_eq (fields : List String) :
    formatCSVAux fields true =
      joinSemi (fields.map (fun f => "\"" ++ escapeQuotes f ++ "\"")) := by
  induction fields with
  | nil => rfl
  | cons f fs ih =>
    cases fs with
    | nil =>
      show ("\"" ++ escapeQuotes f ++ "\"") ++ "" = "\"" ++ escapeQuotes f ++ "\""
      rw [String.append_empty]
    | cons g t =>
      show ("\"" ++ escapeQuotes f ++ "\"") ++
          ((";" ++ ("\"" ++ escapeQuotes g ++ "\"")) ++ formatCSVAux t false) =
        ("\"" ++ escapeQuotes f ++ "\"") ++ ";" ++
          joinSemi (("\"" ++ escapeQuotes g ++ "\"") :: t.map (fun x => "\"" ++ escapeQuotes x ++ "\""))
      rw [List.map_cons] at ih
      rw [← ih]
      show ("\"" ++ escapeQuotes f ++ "\"") ++
          ((";" ++ ("\"" ++ escapeQuotes g ++ "\"")) ++ formatCSVAux t false) =
        ("\"" ++ escapeQuotes f ++ "\"") ++ ";" ++
          (("\"" ++ escapeQuotes g ++ "\"") ++ formatCSVAux t false)
      simp only [String.append_assoc]

/-- C6: a CSV line is the fields each wrapped in double quotes, joined by
semicolons, terminated by CRLF; inside a field only the double quote is
escaped (to backslash, double quote), every other character — semicolons,
backslashes, CR and LF included — passes through verbatim; in particular the
field `a"b` formats as `"a\"b"`. -/
theorem csv_line_format :
    (∀ fields : List String,
      formatCSV fields =
        joinSemi (fields.map (fun f => "\"" ++ escapeQuotes f ++ "\"")) ++ "\r\n")
    ∧ (∀ f : String, (∀ c ∈ f.data, c ≠ '"') → escapeQuotes f = f)
    ∧ formatCSV ["a\"b"] = "\"a\\\"b\"\r\n"
    ∧ formatCSV ["a;b", "c\\d", "e\r\nf"] = "\"a;b\";\"c\\d\";\"e\r\nf\"\r\n" :=
  ⟨fun fields => by rw [formatCSV, formatCSVAux_true_eq],
   escapeQuotes_eq_self, by decide, by decide⟩

/-- Witness for `csv_line_format`: a field holding a semicolon, a backslash
and a CRLF, but no double quote, is passed through unchanged. -/
theorem csv_line_format_witness : escapeQuotes ";x\\y\r\n" = ";x\\y\r\n" :=
  csv_line_format.2.1 ";x\\y\r\n" (by decide)

/-! ## Report generation: existence test, state machine -/

/-- Outcome of the `os.Stat(r.fname)` call in `(*report).exists`
(main.go:149-152): success, a not-found error, or any other error (for
example a permission error on a path component). -/
inductive StatOutcome where
  | ok : StatOutcome
  | notExist : StatOutcome
  | otherErr : StatOutcome
deriving DecidableEq, Repr

/-- Model of `os.IsNotExist(err)` on the three stat outcomes (with `err = nil`
for `ok`, on which `os.IsNotExist` returns false). -/
def isNotExist : StatOutcome → Bool
  | .notExist => true
  | _ => false

/-- `(*report).exists` (main.go:149-152): `return !os.IsNotExist(err)`. -/
def reportExists (st : StatOutcome) : Bool := !(isNotExist st)

/-- Environment of one `(*reporter).generate` call: the outcomes of the
external calls it makes. `writeOk` covers the whole of `(*reporter).write`
(query execution, row scanning and file writes). -/
structure GenEnv where
  stat : StatOutcome
  createOk : Bool
  writeOk : Bool
  closeOk : Bool
  removeOk : Bool
deriving DecidableEq, Repr

/-- Terminal state of one `(*reporter).generate` call. -/
inductive GenOutcome where
  | skipped : GenOutcome
  | createFailed : GenOutcome
  | genFailedRemoved : GenOutcome
  | genFailedLeftPartial : GenOutcome
  | fatalClose : GenOutcome
  | success : GenOutcome
deriving DecidableEq, Repr

/-- Observable effects of one `(*reporter).generate` call. `newFileRemains`
says whether a file this call created is still on disk when the call (or the
process) ends; `processAlive` is false exactly when `l.err.Fatalf` terminated
the process. -/
structure GenResult where
  outcome : GenOutcome
  createCalled : Bool
  queryIssued : Bool
  removeCalled : Bool
  newFileRemains : Bool
  processAlive : Bool
deriving DecidableEq, Repr

/-- `(*reporter).generate` (main.go:102-127), branch for branch:
existence test, `os.Create`, `r.write`, failure cleanup with `os.Remove`,
and the final `f.Close()`. In the final-close-failure branch `l.err.Fatalf`
prints and calls `os.Exit(1)`, so execution never reaches the `os.Remove`
call that follows it (main.go:122-125). -/
def generate (env : GenEnv) : GenResult :=
  if reportExists env.stat then
    { outcome := .skipped, createCalled := false, queryIssued := false,
      removeCalled := false, newFileRemains := false, processAlive := true }
  else if env.createOk = false then
    { outcome := .createFailed, createCalled := true, queryIssued := false,
      removeCalled := false, newFileRemains := false, processAlive := true }
  else if env.writeOk = false then
    if env.removeOk then
      { outcome := .genFailedRemoved, createCalled := true, queryIssued := true,
        removeCalled := true, newFileRemains := false, processAlive := true }
    else
      { outcome := .genFailedLeftPartial, createCalled := true, queryIssued := true,
        removeCalled := true, newFileRemains := true, processAlive := true }
  else if env.closeOk = false then
    { outcome := .fatalClose, createCalled := true, queryIssued := true,
      removeCalled := false, newFileRemains := true, processAlive := false }
  else
    { outcome := .success, createCalled := true, queryIssued := true,
      removeCalled := false, newFileRemains := true, processAlive := true }

/-- Sequential generation of a task's reports, as the loop in `(*task).exec`
(main.go:188-190): true when every report was processed without the process
dying in a `Fatalf`. -/
def execReports : List GenEnv → Bool
  | [] => true
  | e :: es => if (generate e).processAlive then execReports es else false

/-- Result of `(*task).exec` (main.go:180-192). -/
inductive TaskResult where
  | err : String → TaskResult
  | ok : TaskResult
  | died : TaskResult
deriving DecidableEq, Repr

/-- `(*task).exec` (main.go:180-192): an error return only when `sql.Open`
fails; otherwise every report is generated in order — `generate` has no error
result — and nil is returned. `died` marks the process having exited via
`Fatalf` inside a report. -/
def taskExec (openOk : Bool) (envs : List GenEnv) : TaskResult :=
  if openOk = false then TaskResult.err "cannot connect to database"
  else if execReports envs then TaskResult.ok else TaskResult.died

/-- The admission-gate capacity computed in `main` (main.go:252-255): the
value of `*parallel` after `if *parallel > 0 { *parallel = 1 }`, used as the
buffer size of the semaphore channel `sem`. -/
def semCapacity (parallel : Int) : Int :=
  if parallel > 0 then 1 else parallel

/-! ## Claim theorems: existence test and generation -/

/-- C4 counterexample: a stat outcome other than not-found — e.g. a permission
error — makes `(*report).exists` return true, so `generate` logs the skip and
returns without reaching the create step, contradicting the claim that such a
stat failure is treated as "does not exist" and generation proceeds. -/
theorem stat_error_skips_generation :
    reportExists StatOutcome.otherErr = true
      ∧ (generate ⟨StatOutcome.otherErr, true, true, true, true⟩).outcome = GenOutcome.skipped
      ∧ (generate ⟨StatOutcome.otherErr, true, true, true, true⟩).createCalled = false := by
  decide

/-- C4 amended: the existence test treats any stat error other than not-found
as "the report exists": the report is skipped; only a not-found stat outcome
lets generation proceed to the create step. -/
theorem stat_notfound_iff_create (env : GenEnv) :
    ((generate env).outcome = GenOutcome.skipped ↔ env.stat ≠ StatOutcome.notExist)
      ∧ ((generate env).createCalled = true ↔ env.stat = StatOutcome.notExist) := by
  obtain ⟨s, c, w, cl, r⟩ := env
  cases s <;> cases c <;> cases w <;> cases cl <;> cases r <;> decide

/-- C7: when the existence test succeeds, `generate` returns right after
logging the skip: no file create, no query, no remove, no new file, the
process stays alive — the pre-existing target is untouched. -/
theorem existing_report_untouched (env : GenEnv) (h : reportExists env.stat = true) :
    generate env =
      { outcome := GenOutcome.skipped, createCalled := false, queryIssued := false,
        removeCalled := false, newFileRemains := false, processAlive := true } := by
  unfold generate
  rw [if_pos h]

/-- Witness for `existing_report_untouched` at a successful stat. -/
theorem existing_report_untouched_witness :
    generate ⟨StatOutcome.ok, true, true, true, true⟩ =
      { outcome := GenOutcome.skipped, createCalled := false, queryIssued := false,
        removeCalled := false, newFileRemains := false, processAlive := true } :=
  existing_report_untouched ⟨StatOutcome.ok, true, true, true, true⟩ (by decide)

/-- C10: when the report was written but the final `f.Close()` fails,
`l.err.Fatalf` terminates the process, the `os.Remove` branch after it is
unreachable, and the output file is left on disk. -/
theorem fatal_close_leaves_file (env : GenEnv) (h1 : env.stat = StatOutcome.notExist)
    (h2 : env.createOk = true) (h3 : env.writeOk = true) (h4 : env.closeOk = false) :
    (generate env).processAlive = false ∧ (generate env).removeCalled = false
      ∧ (generate env).newFileRemains = true
      ∧ (generate env).outcome = GenOutcome.fatalClose := by
  obtain ⟨s, c, w, cl, r⟩ := env
  cases s <;> cases c <;> cases w <;> cases cl <;> cases r <;>
    simp_all <;> decide

/-- Witness for `fatal_close_leaves_file`. -/
theorem fatal_close_leaves_file_witness :
    (generate ⟨StatOutcome.notExist, true, true, false, true⟩).processAlive = false
      ∧ (generate ⟨StatOutcome.notExist, true, true, false, true⟩).removeCalled = false
      ∧ (generate ⟨StatOutcome.notExist, true, true, false, true⟩).newFileRemains = true
      ∧ (generate ⟨StatOutcome.notExist, true, true, false, true⟩).outcome = GenOutcome.fatalClose :=
  fatal_close_leaves_file ⟨StatOutcome.notExist, true, true, false, true⟩ rfl rfl rfl rfl

lemma execReports_all_alive (envs : List GenEnv)
    (h : ∀ env ∈ envs, (generate env).processAlive = true) : execReports envs = true := by
  induction envs with
  | nil => rfl
  | cons e es ih =>
    unfold execReports
    rw [h e (List.mem_cons_self _ _), ih (fun x hx => h x (List.mem_cons_of_mem _ hx))]
    rfl

/-- C9: a task whose `sql.Open` succeeds never returns an error — per-report
failures have no error result, they are only logged — so the dispatcher's
per-system failure summary can only ever report a connection-open failure. -/
theorem task_error_only_connect (openOk : Bool) (envs : List GenEnv) :
    (∀ e, taskExec openOk envs = TaskResult.err e → openOk = false)
      ∧ (openOk = true → (∀ env ∈ envs, (generate env).processAlive = true) →
          taskExec openOk envs = TaskResult.ok) := by
  constructor
  · intro e he
    by_contra hfalse
    have hopen : openOk = true := by
      cases openOk
      · exact absurd rfl hfalse
      · rfl
    unfold taskExec at he
    rw [hopen] at he
    simp only [Bool.true_eq_false, if_false] at he
    split at he <;> exact TaskResult.noConfusion he
  · intro hopen hall
    unfold taskExec
    rw [hopen, execReports_all_alive envs hall]
    rfl

/-- Witness for `task_error_only_connect`: with a working connection and one
report whose write fails (logged only), the task still returns nil. -/
theorem task_error_only_connect_witness :
    taskExec true [⟨StatOutcome.notExist, true, false, true, false⟩] = TaskResult.ok :=
  (task_error_only_connect true [⟨StatOutcome.notExist, true, false, true, false⟩]).2 rfl
    (by decide)

/-! ## Claim theorems: parallelism flag -/

/-- C1: evaluation of the capacity computation of `main` at the claim's
inputs: a non-positive `maxParallel` is NOT normalized to 1 — it is left
unchanged (capacity 0 is an unbuffered gate on which every task blocks;
a negative capacity makes `make(chan struct, n)` panic) — and every positive
`maxParallel` is clamped to 1 instead of being kept. -/
theorem parallel_capacity_eval :
    semCapacity 0 = 0 ∧ semCapacity (-1) = -1 ∧ semCapacity 1 = 1
      ∧ semCapacity 2 = 1 ∧ semCapacity 5 = 1 := by
  decide

/-! ## Dispatcher model

`run` (main.go:216-231) launches one goroutine per system eagerly; each sends
into the buffered channel `sem` (capacity `maxParallel`) before doing its
work, sends its result into the buffered channel `errch` (capacity = number of
systems, so that send never blocks), and then receives from `sem` to release
its slot. The main loop receives one result per system and logs the failures.
This is modelled as a labelled transition system: a goroutine is `waiting`
before it acquired the gate, `running` while it executes `work` (connection,
query, extraction), `sent` once its result is in `errch` but the gate slot is
still held, and `done` after the release. -/

/-- Phase of one system's goroutine. -/
inductive Phase where
  | waiting : Phase
  | running : Phase
  | sent : Phase
  | done : Phase
deriving DecidableEq, Repr

/-- One system's goroutine: its phase and whether its `work` call returns a
non-nil error (e.g. its connection open fails). The failure bit is fixed by
the environment and does not influence control flow in `run`. -/
structure TaskSt where
  phase : Phase
  fail : Bool
deriving DecidableEq, Repr

/-- Global state of `run`: the goroutines, the number of tokens in the `sem`
channel, the FIFO contents of `errch` not yet received, the number of results
the main loop has received, and the number of failures it has logged. -/
structure DispatchSt where
  tasks : List TaskSt
  gate : Nat
  queue : List Bool
  received : Nat
  logged : Nat
deriving DecidableEq, Repr

/-- Initial state: every goroutine launched and blocked on `sem <- struct{}{}`. -/
def initSt (fails : List Bool) : DispatchSt :=
  { tasks := fails.map (fun b => ⟨Phase.waiting, b⟩), gate := 0, queue := [],
    received := 0, logged := 0 }

/-- Interleaving semantics of `run` with gate capacity `cap`:
`acquire` is the send into `sem` (enabled while the buffer has room),
`finish` is the completion of `work` plus the never-blocking send into
`errch`, `release` is the receive from `sem`, and `recv` is the main loop
receiving one result from `errch` (logging it when it is a failure). -/
inductive DStep (cap : Nat) : DispatchSt → DispatchSt → Prop where
  | acquire (s : DispatchSt) (i : Nat) (t : TaskSt) (h : s.tasks.get? i = some t)
      (hw : t.phase = Phase.waiting) (hg : s.gate < cap) :
      DStep cap s { s with tasks := s.tasks.set i ⟨Phase.running, t.fail⟩, gate := s.gate + 1 }
  | finish (s : DispatchSt) (i : Nat) (t : TaskSt) (h : s.tasks.get? i = some t)
      (hr : t.phase = Phase.running) :
      DStep cap s
        { s with tasks := s.tasks.set i ⟨Phase.sent, t.fail⟩, queue := s.queue ++ [t.fail] }
  | release (s : DispatchSt) (i : Nat) (t : TaskSt) (h : s.tasks.get? i = some t)
      (hs : t.phase = Phase.sent) :
      DStep cap s { s with tasks := s.tasks.set i ⟨Phase.done, t.fail⟩, gate := s.gate - 1 }
  | recv (s : DispatchSt) (b : Bool) (q : List Bool) (hq : s.queue = b :: q) :
      DStep cap s
        { s with
          queue := q, received := s.received + 1, logged := s.logged + (if b then 1 else 0) }

/-- States reachable by `run` from the launch of the goroutines. -/
inductive Reach (cap : Nat) (fails : List Bool) : DispatchSt → Prop where
  | init : Reach cap fails (initSt fails)
  | step {s s2 : DispatchSt} : Reach cap fails s → DStep cap s s2 → Reach cap fails s2

/-- Number of goroutines in phase `ph`. -/
def countPhase (ph : Phase) (l : List TaskSt) : Nat :=
  l.countP (fun t => decide (t.phase = ph))

/-- Number of `true` bits. -/
def countTrue (l : List Bool) : Nat := l.countP (fun b => b)

/-- Number of goroutines that already enqueued a failing result. -/
def countFailedFinished (l : List TaskSt) : Nat :=
  l.countP (fun t => decide ((t.phase = Phase.sent ∨ t.phase = Phase.done) ∧ t.fail = true))

lemma countP_set {α : Type} (p : α → Bool) (l : List α) (i : Nat) (a b : α)
    (h : l.get? i = some a) :
    (l.set i b).countP p + (if p a then 1 else 0) = l.countP p + (if p b then 1 else 0) := by
  induction l generalizing i with
  | nil => simp at h
  | cons x xs ih =>
    cases i with
    | zero =>
      have hxa : x = a := by simpa using h
      rw [← hxa]
      simp only [List.set, List.countP_cons]
      cases hpa : p x <;> cases hpb : p b <;> simp [hpa, hpb]
    | succ n =>
      have h2 : xs.get? n = some a := by simpa using h
      have h3 := ih n h2
      simp only [List.set, List.countP_cons]
      omega

lemma map_set_same {α β : Type} (f : α → β) (l : List α) (i : Nat) (a b : α)
    (h : l.get? i = some a) (hfb : f b = f a) : (l.set i b).map f = l.map f := by
  induction l generalizing i with
  | nil => simp at h
  | cons x xs ih =>
    cases i with
    | zero =>
      have hxa : x = a := by simpa using h
      rw [← hxa] at hfb
      simp [List.set, hfb]
    | succ n =>
      have h2 : xs.get? n = some a := by simpa using h
      simp only [List.set, List.map_cons, ih n h2]

lemma countP_pos_get? {α : Type} (p : α → Bool) (l : List α) (h : 0 < l.countP p) :
    ∃ i a, l.get? i = some a ∧ p a = true := by
  induction l with
  | nil => simp at h
  | cons x xs ih =>
    by_cases hx : p x = true
    · exact ⟨0, x, rfl, hx⟩
    · have hx0 : 0 < xs.countP p := by
        rw [List.countP_cons, if_neg hx] at h
        omega
      obtain ⟨i, a, hget, hpa⟩ := ih hx0
      exact ⟨i + 1, a, hget, hpa⟩

lemma countP_congr_eq {α : Type} (l : List α) (p q : α → Bool) (h : ∀ a ∈ l, p a = q a) :
    l.countP p = l.countP q := by
  induction l with
  | nil => rfl
  | cons x xs ih =>
    rw [List.countP_cons, List.countP_cons, h x (List.mem_cons_self _ _),
      ih (fun a ha => h a (List.mem_cons_of_mem _ ha))]

lemma phase_partition (l : List TaskSt) :
    countPhase Phase.waiting l + countPhase Phase.running l
      + countPhase Phase.sent l + countPhase Phase.done l = l.length := by
  induction l with
  | nil => rfl
  | cons t ts ih =>
    obtain ⟨tp, tf⟩ := t
    unfold countPhase at ih ⊢
    simp only [List.countP_cons, List.length_cons]
    cases tp <;> simp <;> omega

/-- Inductive invariant of the dispatcher: failure bits are fixed, the gate
token count is exactly the goroutines between acquire and release and never
exceeds the capacity, the results received plus the results still buffered
are the goroutines whose work completed, and the failures logged plus the
failures still buffered are the completed goroutines that failed. -/
def DInv (cap : Nat) (fails : List Bool) (s : DispatchSt) : Prop :=
  s.tasks.map TaskSt.fail = fails
  ∧ s.gate = countPhase Phase.running s.tasks + countPhase Phase.sent s.tasks
  ∧ s.gate ≤ cap
  ∧ s.received + s.queue.length
      = countPhase Phase.sent s.tasks + countPhase Phase.done s.tasks
  ∧ s.logged + countTrue s.queue = countFailedFinished s.tasks

lemma countPhase_set (ph : Phase) (l : List TaskSt) (i : Nat) (a b : TaskSt)
    (h : l.get? i = some a) :
    countPhase ph (l.set i b) + (if a.phase = ph then 1 else 0)
      = countPhase ph l + (if b.phase = ph then 1 else 0) := by
  unfold countPhase
  have h2 := countP_set (fun t => decide (t.phase = ph)) l i a b h
  simp only [decide_eq_true_eq] at h2
  exact h2

lemma countFF_set (l : List TaskSt) (i : Nat) (a b : TaskSt) (h : l.get? i = some a) :
    countFailedFinished (l.set i b)
        + (if (a.phase = Phase.sent ∨ a.phase = Phase.done) ∧ a.fail = true then 1 else 0)
      = countFailedFinished l
        + (if (b.phase = Phase.sent ∨ b.phase = Phase.done) ∧ b.fail = true then 1 else 0) := by
  unfold countFailedFinished
  have h2 := countP_set
    (fun t => decide ((t.phase = Phase.sent ∨ t.phase = Phase.done) ∧ t.fail = true)) l i a b h
  simp only [decide_eq_true_eq] at h2
  exact h2

lemma countTrue_append (q r : List Bool) :
    countTrue (q ++ r) = countTrue q + countTrue r := by
  unfold countTrue
  rw [List.countP_append]

lemma countTrue_cons (b : Bool) (q : List Bool) :
    countTrue (b :: q) = countTrue q + (if b then 1 else 0) := by
  unfold countTrue
  rw [List.countP_cons]

lemma reach_inv (cap : Nat) (fails : List Bool) (s0 : DispatchSt) (h : Reach cap fails s0) :
    DInv cap fails s0 := by
  induction h with
  | init =>
    have hz : ∀ p : TaskSt → Bool, (∀ b : Bool, p ⟨Phase.waiting, b⟩ = false) →
        List.countP p (fails.map (fun b => ⟨Phase.waiting, b⟩)) = 0 := by
      intro p hp
      rw [List.countP_eq_zero]
      intro t ht
      obtain ⟨b, hb, rfl⟩ := List.mem_map.mp ht
      simp [hp b]
    refine ⟨?_, ?_, ?_, ?_, ?_⟩
    · show List.map TaskSt.fail (List.map (fun b => ⟨Phase.waiting, b⟩) fails) = fails
      rw [List.map_map]
      exact List.map_id fails
    · show 0 = countPhase Phase.running (fails.map (fun b => ⟨Phase.waiting, b⟩))
            + countPhase Phase.sent (fails.map (fun b => ⟨Phase.waiting, b⟩))
      unfold countPhase
      rw [hz _ (fun b => by simp), hz _ (fun b => by simp)]
    · exact Nat.zero_le cap
    · show 0 + List.length [] = countPhase Phase.sent (fails.map (fun b => ⟨Phase.waiting, b⟩))
            + countPhase Phase.done (fails.map (fun b => ⟨Phase.waiting, b⟩))
      unfold countPhase
      rw [hz _ (fun b => by simp), hz _ (fun b => by simp)]
      rfl
    · show 0 + countTrue [] = countFailedFinished (fails.map (fun b => ⟨Phase.waiting, b⟩))
      unfold countFailedFinished countTrue
      rw [hz _ (fun b => by simp)]
      rfl
  | @step s s2 hreach hstep ih =>
    obtain ⟨hfail, hgate, hcap2, hrecv, hlog⟩ := ih
    cases hstep with
    | acquire i t h hw hg =>
      obtain ⟨tp, tf⟩ := t
      dsimp only at hw
      subst hw
      have hW := countPhase_set Phase.waiting s.tasks i ⟨Phase.waiting, tf⟩ ⟨Phase.running, tf⟩ h
      have hR := countPhase_set Phase.running s.tasks i ⟨Phase.waiting, tf⟩ ⟨Phase.running, tf⟩ h
      have hS := countPhase_set Phase.sent s.tasks i ⟨Phase.waiting, tf⟩ ⟨Phase.running, tf⟩ h
      have hD := countPhase_set Phase.done s.tasks i ⟨Phase.waiting, tf⟩ ⟨Phase.running, tf⟩ h
      have hF := countFF_set s.tasks i ⟨Phase.waiting, tf⟩ ⟨Phase.running, tf⟩ h
      simp at hW hR hS hD hF
      refine ⟨?_, ?_, ?_, ?_, ?_⟩
      · dsimp only
        rw [map_set_same TaskSt.fail s.tasks i ⟨Phase.waiting, tf⟩ ⟨Phase.running, tf⟩ h rfl]
        exact hfail
      · dsimp only
        omega
      · dsimp only
        omega
      · dsimp only
        omega
      · dsimp only
        omega
    | finish i t h hr =>
      obtain ⟨tp, tf⟩ := t
      dsimp only at hr
      subst hr
      have hW := countPhase_set Phase.waiting s.tasks i ⟨Phase.running, tf⟩ ⟨Phase.sent, tf⟩ h
      have hR := countPhase_set Phase.running s.tasks i ⟨Phase.running, tf⟩ ⟨Phase.sent, tf⟩ h
      have hS := countPhase_set Phase.sent s.tasks i ⟨Phase.running, tf⟩ ⟨Phase.sent, tf⟩ h
      have hD := countPhase_set Phase.done s.tasks i ⟨Phase.running, tf⟩ ⟨Phase.sent, tf⟩ h
      have hF := countFF_set s.tasks i ⟨Phase.running, tf⟩ ⟨Phase.sent, tf⟩ h
      refine ⟨?_, ?_, ?_, ?_, ?_⟩
      · dsimp only
        rw [map_set_same TaskSt.fail s.tasks i ⟨Phase.running, tf⟩ ⟨Phase.sent, tf⟩ h rfl]
        exact hfail
      · dsimp only
        simp at hW hR hS hD
        omega
      · dsimp only
        omega
      · dsimp only
        simp at hS hD
        simp only [List.length_append, List.length_cons, List.length_nil]
        omega
      · dsimp only
        cases tf <;> simp at hF <;>
          simp [countTrue_append, countTrue_cons, show countTrue ([] : List Bool) = 0 from rfl] <;>
          omega
    | release i t h hs =>
      obtain ⟨tp, tf⟩ := t
      dsimp only at hs
      subst hs
      have hW := countPhase_set Phase.waiting s.tasks i ⟨Phase.sent, tf⟩ ⟨Phase.done, tf⟩ h
      have hR := countPhase_set Phase.running s.tasks i ⟨Phase.sent, tf⟩ ⟨Phase.done, tf⟩ h
      have hS := countPhase_set Phase.sent s.tasks i ⟨Phase.sent, tf⟩ ⟨Phase.done, tf⟩ h
      have hD := countPhase_set Phase.done s.tasks i ⟨Phase.sent, tf⟩ ⟨Phase.done, tf⟩ h
      have hF := countFF_set s.tasks i ⟨Phase.sent, tf⟩ ⟨Phase.done, tf⟩ h
      refine ⟨?_, ?_, ?_, ?_, ?_⟩
      · dsimp only
        rw [map_set_same TaskSt.fail s.tasks i ⟨Phase.sent, tf⟩ ⟨Phase.done, tf⟩ h rfl]
        exact hfail
      · dsimp only
        simp at hW hR hS hD
        omega
      · dsimp only
        omega
      · dsimp only
        simp at hS hD
        omega
      · dsimp only
        cases tf <;> simp at hF ⊢ <;> omega
    | recv b q hq =>
      refine ⟨hfail, hgate, hcap2, ?_, ?_⟩
      · dsimp only
        rw [hq] at hrecv
        simp only [List.length_cons] at hrecv
        omega
      · dsimp only
        rw [hq, countTrue_cons] at hlog
        cases b <;> simp at hlog ⊢ <;> omega

/-- C8: for every set of systems (with arbitrary per-system failure bits) and
every positive gate capacity `maxParallel`, in every reachable state of the
dispatcher at most `maxParallel` tasks are in their query/extraction phase;
when the receive loop of `run` has collected one result per system — the only
way `run` returns — every system's task has finished its work (so every
system was attempted regardless of other systems' failures) and exactly the
failing tasks' errors have been logged; and from any reachable state in which
`run` has not yet returned some step is enabled (the dispatcher cannot get
stuck). -/
theorem dispatcher_bounded (cap : Nat) (fails : List Bool) (hcap : 1 ≤ cap) :
    (∀ s, Reach cap fails s → countPhase Phase.running s.tasks ≤ cap)
    ∧ (∀ s, Reach cap fails s → s.received = fails.length →
        (∀ t ∈ s.tasks, t.phase = Phase.sent ∨ t.phase = Phase.done)
        ∧ s.logged = countTrue fails)
    ∧ (∀ s, Reach cap fails s → s.received < fails.length → ∃ s2, DStep cap s s2) := by
  refine ⟨?_, ?_, ?_⟩
  · intro s hr
    obtain ⟨hfail, hgate, hcap2, hrecv, hlog⟩ := reach_inv cap fails s hr
    omega
  · intro s hr hn
    obtain ⟨hfail, hgate, hcap2, hrecv, hlog⟩ := reach_inv cap fails s hr
    have hlen : s.tasks.length = fails.length := by rw [← hfail, List.length_map]
    have hpart := phase_partition s.tasks
    have hw0 : countPhase Phase.waiting s.tasks = 0 := by omega
    have hr0 : countPhase Phase.running s.tasks = 0 := by omega
    have hq0 : s.queue.length = 0 := by omega
    have hfin : ∀ t ∈ s.tasks, t.phase = Phase.sent ∨ t.phase = Phase.done := by
      intro t ht
      unfold countPhase at hw0 hr0
      have h1 := List.countP_eq_zero.mp hw0 t ht
      have h2 := List.countP_eq_zero.mp hr0 t ht
      simp only [decide_eq_true_eq] at h1 h2
      cases hph : t.phase
      · exact absurd hph h1
      · exact absurd hph h2
      · exact Or.inl rfl
      · exact Or.inr rfl
    refine ⟨hfin, ?_⟩
    have hqnil : s.queue = [] := List.length_eq_zero.mp hq0
    rw [hqnil] at hlog
    have hcT : countTrue ([] : List Bool) = 0 := rfl
    have hcff : countFailedFinished s.tasks = countTrue fails := by
      rw [← hfail]
      unfold countFailedFinished countTrue
      rw [List.countP_map]
      exact countP_congr_eq _ _ _ (fun t ht => by
        rcases hfin t ht with h1 | h1 <;> simp [h1, Function.comp])
    omega
  · intro s hr hlt
    obtain ⟨hfail, hgate, hcap2, hrecv, hlog⟩ := reach_inv cap fails s hr
    have hlen : s.tasks.length = fails.length := by rw [← hfail, List.length_map]
    have hpart := phase_partition s.tasks
    cases hq : s.queue with
    | cons b q => exact ⟨_, DStep.recv s b q hq⟩
    | nil =>
      rw [hq] at hrecv
      simp only [List.length_nil] at hrecv
      by_cases hR : 0 < countPhase Phase.running s.tasks
      · unfold countPhase at hR
        obtain ⟨i, t, hget, hp⟩ := countP_pos_get? _ _ hR
        have hph : t.phase = Phase.running := by simpa using hp
        exact ⟨_, DStep.finish s i t hget hph⟩
      · by_cases hS : 0 < countPhase Phase.sent s.tasks
        · unfold countPhase at hS
          obtain ⟨i, t, hget, hp⟩ := countP_pos_get? _ _ hS
          have hph : t.phase = Phase.sent := by simpa using hp
          exact ⟨_, DStep.release s i t hget hph⟩
        · have hW : 0 < countPhase Phase.waiting s.tasks := by omega
          have hglt : s.gate < cap := by omega
          unfold countPhase at hW
          obtain ⟨i, t, hget, hp⟩ := countP_pos_get? _ _ hW
          have hph : t.phase = Phase.waiting := by simpa using hp
          exact ⟨_, DStep.acquire s i t hget hph hglt⟩

/-- Witness for `dispatcher_bounded`: one system with a succeeding task and
capacity 1, evaluated at the initial state. -/
theorem dispatcher_bounded_witness :
    countPhase Phase.running (initSt [false]).tasks ≤ 1
      ∧ (∃ s2, DStep 1 (initSt [false]) s2) :=
  ⟨(dispatcher_bounded 1 [false] (by decide)).1 (initSt [false]) Reach.init,
   (dispatcher_bounded 1 [false] (by decide)).2.2 (initSt [false]) Reach.init (by decide)⟩

/-- Year rollover check: a January `now` steps back into December of the
previous year, with the directory joined into the file name. -/
example : taskReports "s" "out" ⟨2024, 1, 10, 5, 6, 7⟩ 1 =
    some [⟨"s", "out/s-2023-12.csv", ⟨2023, 12, 1, 0, 0, 0⟩, ⟨2023, 12, 31, 23, 59, 59⟩⟩] := by
  decide

end T3rep
